import Mathlib

/-!
Shallow embedding of the rimmich-uploader upload pipeline (src/main.rs), with
theorems checking the natural-language specification against it.

The embedding covers: response classification in `upload_file`, the timestamp
fallback chain, the stable `deviceAssetId` derivation, the multipart request
builder, the media-file discoverer, the connectivity / directory preconditions,
and the `buffer_unordered`-bounded concurrent scheduler of `upload_directory`.
External collaborators (reqwest, chrono, mime_guess, walkdir, std's hasher) are
modelled at their interface boundary, as the spec itself treats them.
-/

namespace Rimmich

/-! ## String helpers (models of Rust `str::contains` / `str::starts_with`) -/

/-- Substring occurrence test on character lists: `needle` occurs contiguously
in the haystack. Models Rust `str::contains` at the interface level. -/
def containsSeq (needle : List Char) : List Char → Bool
  | [] => needle.isEmpty
  | c :: rest => needle.isPrefixOf (c :: rest) || containsSeq needle rest

/-- `strContains h n`: the string `n` occurs as a contiguous substring of `h`.
Models Rust `str::contains`. -/
def strContains (haystack needle : String) : Bool :=
  containsSeq needle.data haystack.data

/-- `strStartsWith s p`: `p` is a prefix of `s`. Models Rust `str::starts_with`. -/
def strStartsWith (s p : String) : Bool :=
  p.data.isPrefixOf s.data

/-! ## Upload outcome and response classification (`upload_file`, lines 368-378) -/

/-- `reqwest::StatusCode::is_success()`: exactly the statuses 200..=299. -/
def statusIsSuccess (status : Nat) : Bool :=
  200 ≤ status && status < 300

/-- The terminal classification of one upload attempt, as the spec's
`UploadOutcome`: `Uploaded` is the 2xx branch of `upload_file`,
`AlreadyExists` its 409/"already exists" branch (which returns `Ok`), and
`Failed` its `bail!` branch carrying status and body. -/
inductive UploadOutcome where
  | Uploaded : UploadOutcome
  | AlreadyExists : UploadOutcome
  | Failed : Nat → String → UploadOutcome
deriving DecidableEq

/-- Embeds the response handling of `upload_file` (main.rs lines 368-378):
2xx falls through to `Ok`; otherwise a 409 status or a body containing
"already exists" returns `Ok` (duplicate); anything else bails with status and
body. The three branches are distinguished as the spec's three outcomes. -/
def classify_response (status : Nat) (body : String) : UploadOutcome :=
  if statusIsSuccess status then .Uploaded
  else if status == 409 || strContains body "already exists" then .AlreadyExists
  else .Failed status body

/-- The `Result` actually returned by `upload_file` for a given response:
`Ok(())` on the success and duplicate branches, `Err` (status, body) on the
bail branch (main.rs lines 368-378). -/
def upload_response_result (status : Nat) (body : String) : Except (Nat × String) Unit :=
  if statusIsSuccess status then .ok ()
  else if status == 409 || strContains body "already exists" then .ok ()
  else .error (status, body)

/-! ## Timestamp fallback chain (`upload_file`, lines 320-330)

File times are modelled as `Option Int` (the fallible `metadata.created()` /
`metadata.modified()` calls), `now` as the `Int` produced by
`SystemTime::now()`. -/

/-- Embeds `metadata.created().or_else(|_| metadata.modified()).unwrap_or_else(|_| SystemTime::now())`
(main.rs lines 322-326). -/
def created_at (created modified : Option Int) (now : Int) : Int :=
  ((created.orElse fun _ => modified).getD now)

/-- Embeds `metadata.modified().unwrap_or_else(|_| SystemTime::now())`
(main.rs lines 327-330). -/
def modified_at (modified : Option Int) (now : Int) : Int :=
  modified.getD now

/-! ## Stable device asset id (`upload_file`, lines 337-340)

`DefaultHasher` in Rust's std is SipHash-1-3 with zero keys; it is external to
this repository, so it is embedded here at the interface level as the actual
SipHash-1-3 algorithm applied to the path's UTF-8 bytes, over `Nat` with
explicit reduction mod 2^64. -/

/-- Truncation to a 64-bit word. -/
def wmask (x : Nat) : Nat := x % 2 ^ 64

/-- 64-bit left rotation of a word `x < 2^64` by `b ≤ 63` bits. -/
def rotl64 (x b : Nat) : Nat := ((x <<< b) % 2 ^ 64) ||| (x >>> (64 - b))

/-- The four 64-bit words of the SipHash internal state. -/
structure SipState where
  v0 : Nat
  v1 : Nat
  v2 : Nat
  v3 : Nat

/-- One SipRound of the SipHash permutation. -/
def sipRound (s : SipState) : SipState :=
  let v0 := wmask (s.v0 + s.v1)
  let v1 := rotl64 s.v1 13
  let v1 := Nat.xor v1 v0
  let v0 := rotl64 v0 32
  let v2 := wmask (s.v2 + s.v3)
  let v3 := rotl64 s.v3 16
  let v3 := Nat.xor v3 v2
  let v0 := wmask (v0 + v3)
  let v3 := rotl64 v3 21
  let v3 := Nat.xor v3 v0
  let v2 := wmask (v2 + v1)
  let v1 := rotl64 v1 17
  let v1 := Nat.xor v1 v2
  let v2 := rotl64 v2 32
  ⟨v0, v1, v2, v3⟩

/-- Compression of one message word for SipHash-1-3 (c = 1 round). -/
def sipCompress (s : SipState) (m : Nat) : SipState :=
  let s1 : SipState := ⟨s.v0, s.v1, s.v2, Nat.xor s.v3 m⟩
  let s2 := sipRound s1
  ⟨Nat.xor s2.v0 m, s2.v1, s2.v2, s2.v3⟩

/-- Little-endian word value of a byte list (first byte least significant). -/
def leWord : List Nat → Nat
  | [] => 0
  | b :: rest => b + 256 * leWord rest

/-- Consumes the full 8-byte blocks of the message, returning the state and
the remaining (< 8) tail bytes. -/
def sipBlocks (s : SipState) : List Nat → SipState × List Nat
  | b0 :: b1 :: b2 :: b3 :: b4 :: b5 :: b6 :: b7 :: rest =>
      sipBlocks (sipCompress s (leWord [b0, b1, b2, b3, b4, b5, b6, b7])) rest
  | rest => (s, rest)

/-- SipHash-1-3 with the zero key pair, the algorithm of std's
`DefaultHasher::new()` (external to this repository; modelled at the
interface boundary). -/
def siphash13 (bytes : List Nat) : Nat :=
  let st0 : SipState :=
    ⟨0x736f6d6570736575, 0x646f72616e646f6d, 0x6c7967656e657261, 0x7465646279746573⟩
  let br := sipBlocks st0 bytes
  let lastWord := leWord br.2 + (bytes.length % 256) * 2 ^ 56
  let s1 := sipCompress br.1 lastWord
  let s2 : SipState := ⟨s1.v0, s1.v1, Nat.xor s1.v2 0xff, s1.v3⟩
  let s3 := sipRound (sipRound (sipRound s2))
  Nat.xor (Nat.xor s3.v0 s3.v1) (Nat.xor s3.v2 s3.v3)

/-- UTF-8 bytes of a path string, the data fed to the hasher by
`path.hash(&mut hasher)` (main.rs line 339). -/
def pathBytes (path : String) : List Nat :=
  path.data.flatMap fun c => (String.utf8EncodeChar c).map UInt8.toNat

/-- The stable hash of a path computed in `upload_file` (main.rs lines
338-340): `DefaultHasher::new()`, `path.hash(..)`, `finish()`. -/
def path_hash (path : String) : Nat :=
  siphash13 (pathBytes path)

/-- Decimal digit to its ASCII character. -/
def digitChar (d : Nat) : Char := Char.ofNat (48 + d)

/-- Little-endian decimal digit characters of `n`, with enough fuel. -/
def natDecimalAux : Nat → Nat → List Char
  | 0, _ => []
  | _ + 1, 0 => []
  | fuel + 1, n => digitChar (n % 10) :: natDecimalAux fuel (n / 10)

/-- Decimal rendering of a natural number, the `{}` formatting of the `u64`
returned by `hasher.finish()`. -/
def natDecimal (n : Nat) : String :=
  if n = 0 then "0" else ⟨(natDecimalAux n n).reverse⟩

/-- Decimal decoding, left inverse of `natDecimal`. -/
def decodeDecimal (s : String) : Nat :=
  Nat.ofDigits 10 (s.data.reverse.map fun c => c.toNat - 48)

/-- The fixed device identifier of this client (main.rs line 273). -/
def device_id : String := "rimmich-uploader"

/-- Embeds `format!("{}-{}", device_id, hasher.finish())` (main.rs line 340):
the device token, a dash, and the decimal path hash. -/
def device_asset_id (dev : String) (path : String) : String :=
  dev ++ "-" ++ natDecimal (path_hash path)

/-- Everything `upload_file` reads besides the path when building the asset
identity: the fallible file times, the current wall clock and the file bytes.
Two different runs of the program differ exactly in such an environment. -/
structure RunEnv where
  created : Option Int
  modified : Option Int
  now : Int
  fileBytes : List Nat

/-- The spec's `AssetIdentity` record as computed by `upload_file`
(main.rs lines 320-340). -/
structure AssetIdentity where
  deviceAssetId : String
  deviceId : String
  createdAt : Int
  modifiedAt : Int

/-- The asset identity `upload_file` derives for `path` in run environment
`env` (main.rs lines 320-340). -/
def asset_identity (path : String) (env : RunEnv) : AssetIdentity :=
  { deviceAssetId := device_asset_id device_id path
    deviceId := device_id
    createdAt := created_at env.created env.modified env.now
    modifiedAt := modified_at env.modified env.now }

/-! ## Multipart request construction (`upload_file`, lines 313-366)

The reqwest multipart API is modelled at its interface: a form is an ordered
list of named parts. -/

/-- The payload of one multipart part: raw bytes or a text field. -/
inductive PartBody where
  | bytes : List Nat → PartBody
  | text : String → PartBody
deriving DecidableEq

/-- One part of a multipart form. -/
structure FormPart where
  name : String
  filename : Option String
  mime : Option String
  body : PartBody
deriving DecidableEq

/-- `multipart::Part::bytes(b)`. -/
def Part.bytes (b : List Nat) : FormPart := ⟨"", none, none, .bytes b⟩

/-- `part.file_name(f)`. -/
def Part.file_name (p : FormPart) (f : String) : FormPart := { p with filename := some f }

/-- `part.mime_str(m)`. -/
def Part.mime_str (p : FormPart) (m : String) : FormPart := { p with mime := some m }

/-- `multipart::Form::new()`: the empty form. -/
def Form.new : List FormPart := []

/-- `form.part(name, p)`: appends `p` under the field name `name`. -/
def Form.part (form : List FormPart) (name : String) (p : FormPart) : List FormPart :=
  form ++ [{ p with name := name }]

/-- `form.text(name, s)`: appends a text field. -/
def Form.text (form : List FormPart) (name s : String) : List FormPart :=
  form ++ [⟨name, none, none, .text s⟩]

/-- One HTTP request as observed at the reqwest interface. -/
structure UploadRequest where
  method : String
  url : String
  xApiKey : String
  parts : List FormPart
deriving DecidableEq

/-- Interface-level model of chrono's `DateTime::to_rfc3339` (external
library): a rendering of the timestamp. The claims here use only which
timestamp each part carries, not the rendering's internal format. -/
def to_rfc3339 (t : Int) : String :=
  match t with
  | .ofNat n => natDecimal n
  | .negSucc n => "-" ++ natDecimal (n + 1)

/-- The characters after the last `/` of the path. -/
def afterLastSlash (acc : List Char) : List Char → List Char
  | [] => acc
  | c :: rest => if c = '/' then afterLastSlash [] rest else afterLastSlash (acc ++ [c]) rest

/-- Models `path.file_name().and_then(|n| n.to_str())` (main.rs lines
332-335): the last `/`-separated component of the path, `none` when empty. -/
def basename (path : String) : Option String :=
  let tail := afterLastSlash [] path.data
  if tail.isEmpty then none else some ⟨tail⟩

/-- The fallible file metadata read by `std::fs::metadata` in `upload_file`. -/
structure FileMeta where
  created : Option Int
  modified : Option Int
deriving DecidableEq

/-- Embeds the request construction of `upload_file` (main.rs lines 313-366):
derives the timestamps, the filename and the device asset id, builds the part
and the form exactly as the source's builder chain does, and produces the one
POST to `{server}/api/assets` with the `x-api-key` header. Fails with
"Invalid filename" when the path has no representable file name. -/
def upload_file_request (server_url api_key path dev mime : String)
    (meta : FileMeta) (now : Int) (fileBytes : List Nat) :
    Except String UploadRequest :=
  let createdAt := created_at meta.created meta.modified now
  let modifiedAt := modified_at meta.modified now
  match basename path with
  | none => .error "Invalid filename"
  | some filename =>
    let part := Part.mime_str (Part.file_name (Part.bytes fileBytes) filename) mime
    let form :=
      Form.text (Form.text (Form.text (Form.text (Form.text
        (Form.part Form.new "assetData" part)
        "deviceAssetId" (device_asset_id dev path))
        "deviceId" dev)
        "fileCreatedAt" (to_rfc3339 createdAt))
        "fileModifiedAt" (to_rfc3339 modifiedAt))
        "isFavorite" "false"
    .ok { method := "POST", url := server_url ++ "/api/assets",
          xApiKey := api_key, parts := form }

/-- The list of HTTP requests one `upload_file` invocation sends: exactly one
when the request is built, none when it errors before `send()`. -/
def upload_file_sends (server_url api_key path dev mime : String)
    (meta : FileMeta) (now : Int) (fileBytes : List Nat) : List UploadRequest :=
  match upload_file_request server_url api_key path dev mime meta now fileBytes with
  | .ok r => [r]
  | .error _ => []

/-! ## File discovery (`upload_directory` lines 233-249, `is_image_or_video` lines 306-310)

A directory tree is modelled as a forest of entries; each regular file carries
the content type `mime_guess` sniffs for it (`first_or_octet_stream` always
yields a string, `application/octet-stream` when unclassifiable). `special`
stands for directory entries that are neither regular files nor directories
(symlinks to directories, sockets, ...), for which `file_type().is_file()` is
false. -/

mutual
/-- One filesystem entry: a regular file (with its sniffed content type), a
directory with its children, or a non-regular special entry. -/
inductive FsEntry where
  | file : String → String → FsEntry
  | dir : String → FsForest → FsEntry
  | special : String → FsEntry
/-- A list of sibling filesystem entries. -/
inductive FsForest where
  | nil : FsForest
  | cons : FsEntry → FsForest → FsForest
end

/-- What `entry.file_type()` exposes about one walked entry. -/
inductive EntryKind where
  | fileK : String → EntryKind
  | dirK : EntryKind
  | specialK : EntryKind
deriving DecidableEq

/-- Embeds `is_image_or_video` (main.rs lines 306-310) on the sniffed content
type: the mime string starts with `image/` or `video/`. -/
def is_image_or_video (mime : String) : Bool :=
  strStartsWith mime "image/" || strStartsWith mime "video/"

mutual
/-- The entries `WalkDir` yields for one entry, in traversal order, with
unrestricted depth: the entry itself, then (for a directory) its descendants. -/
def walkEntry (pre : String) : FsEntry → List (String × EntryKind)
  | .file name mime => [(pre ++ name, .fileK mime)]
  | .special name => [(pre ++ name, .specialK)]
  | .dir name children => (pre ++ name, .dirK) :: walkForest (pre ++ name ++ "/") children
/-- The entries `WalkDir` yields for a forest of siblings, in order. -/
def walkForest (pre : String) : FsForest → List (String × EntryKind)
  | .nil => []
  | .cons e rest => walkEntry pre e ++ walkForest pre rest
end

/-- The entries `WalkDir::new(root).max_depth(1)` yields below the root: the
direct children only, no descent into subdirectories. -/
def walkDepth1 (pre : String) : FsForest → List (String × EntryKind)
  | .nil => []
  | .cons e rest =>
      (match e with
       | .file name mime => [(pre ++ name, .fileK mime)]
       | .special name => [(pre ++ name, .specialK)]
       | .dir name _ => [(pre ++ name, .dirK)]) ++ walkDepth1 pre rest

/-- The filter body of the scan loop (main.rs lines 242-249): keep an entry's
path iff `file_type().is_file()` and `is_image_or_video(path)`. -/
def entryMedia (e : String × EntryKind) : Option String :=
  match e.2 with
  | .fileK mime => if is_image_or_video mime then some e.1 else none
  | .dirK => none
  | .specialK => none

/-- Embeds the scan of `upload_directory` (main.rs lines 233-249): walk the
root (optionally depth-limited to 1) and collect the paths of regular files
whose sniffed type is image or video, in traversal order. The root entry
itself (depth 0, a directory) is part of the walk but never a regular file. -/
def discovered (recursive : Bool) (root : FsForest) : List String :=
  (if recursive then walkForest "" root else walkDepth1 "" root).filterMap entryMedia

mutual
/-- The regular files under one entry, each with its sniffed content type,
unrestricted depth. -/
def regularFilesEntry (pre : String) : FsEntry → List (String × String)
  | .file name mime => [(pre ++ name, mime)]
  | .special _ => []
  | .dir name children => regularFilesForest (pre ++ name ++ "/") children
/-- The regular files under a forest, each with its sniffed content type. -/
def regularFilesForest (pre : String) : FsForest → List (String × String)
  | .nil => []
  | .cons e rest => regularFilesEntry pre e ++ regularFilesForest pre rest
end

/-- The regular files among the direct children of the root only. -/
def regularFilesDepth1 (pre : String) : FsForest → List (String × String)
  | .nil => []
  | .cons e rest =>
      (match e with
       | .file name mime => [(pre ++ name, mime)]
       | .special _ => []
       | .dir _ _ => []) ++ regularFilesDepth1 pre rest

/-- The spec's characterisation of the Discoverer, written from the spec's
words for comparison with `discovered`: the regular files under the scanned
scope (direct children only when not recursive) whose sniffed content type
starts with `image/` or `video/`. -/
def spec_discoverer (recursive : Bool) (root : FsForest) : List String :=
  ((if recursive then regularFilesForest "" root else regularFilesDepth1 "" root).filter
    fun pm => is_image_or_video pm.2).map Prod.fst

/-! ## Preconditions (`check_connection` lines 206-218, `upload_directory` lines 229-260) -/

/-- Embeds `check_connection` (main.rs lines 206-218): the GET of
`{server}/api/server/ping` must return a success status, and its body must
contain `pong`; otherwise the function bails. -/
def check_connection (status : Nat) (body : String) : Except String Unit :=
  if !statusIsSuccess status then .error "Server ping failed"
  else if !strContains body "pong" then .error "Unexpected response from ping"
  else .ok ()

/-- Embeds the phase of `upload_directory` before the upload stream (main.rs
lines 229-260): bail when the root is not a directory; scan; return early when
no media file was found; otherwise hand the file list and the (unvalidated)
concurrency limit to the scheduler. No check of `concurrent` occurs anywhere
in this phase; `concurrent` is a `usize`, so negative values are
unrepresentable. -/
def upload_directory_pre (isDir recursive : Bool) (root : FsForest) (concurrent : Nat) :
    Except String (Option (List String × Nat)) :=
  if !isDir then .error "Path is not a directory"
  else
    let files := discovered recursive root
    if files.isEmpty then .ok none
    else .ok (some (files, concurrent))

/-- Embeds the Upload flow of `main` (main.rs lines 185-198): the connectivity
check runs first and its failure aborts before `upload_directory` is entered;
then `upload_directory` checks the root and scans. The `ok` value is what
reaches the scheduler. -/
def run_upload (pingStatus : Nat) (pingBody : String) (isDir recursive : Bool)
    (root : FsForest) (concurrent : Nat) : Except String (Option (List String × Nat)) :=
  match check_connection pingStatus pingBody with
  | .error e => .error e
  | .ok _ => upload_directory_pre isDir recursive root concurrent

/-- The files the scheduler is started on for a given `run_upload` result:
none unless every precondition passed and media files were found. `upload_file`
invocations happen only through scheduler steps on these files. -/
def scheduled_files (r : Except String (Option (List String × Nat))) : List String :=
  match r with
  | .ok (some fl) => fl.1
  | .ok none => []
  | .error _ => []

/-! ## The bounded-concurrency scheduler (`upload_directory`, lines 262-302)

`futures::stream::iter(files).map(..).buffer_unordered(concurrent)` driven by
`while requests.next().await.is_some() {}` is modelled as a transition system:
`pending` are files not yet admitted (in stream order), `inflight` the
outstanding `upload_file` invocations (at most `concurrent`), `done` the
resolved files with their outcomes. The per-file async block maps a resolution
to exactly one progress increment whether the result is `Ok` or `Err` (lines
284-292), so each `complete` step records exactly one outcome. The outcome a
file resolves to is an environment parameter `out` (the server's behaviour);
the scheduler itself never inspects it. -/

/-- Scheduler state: pending files, in-flight uploads, resolved outcomes. -/
structure SchedState where
  pending : List String
  inflight : List String
  done : List (String × UploadOutcome)
deriving DecidableEq

/-- The state in which `buffer_unordered` starts: all files pending. -/
def initSched (files : List String) : SchedState := ⟨files, [], []⟩

/-- The stream has ended: nothing pending, nothing in flight. -/
def SchedState.Final (s : SchedState) : Prop := s.pending = [] ∧ s.inflight = []

/-- One scheduler transition: `enter` admits the next pending file when fewer
than `limit` uploads are outstanding (`buffer_unordered` polls the mapped
stream only while its window has room); `complete` resolves any outstanding
upload — in any order — recording its outcome and its single progress
increment. A `Failed` outcome takes the same transition as a success: no
transition removes pending or in-flight work without resolving it. -/
inductive SchedStep (limit : Nat) (out : String → UploadOutcome) :
    SchedState → SchedState → Prop where
  | enter (p : String) (rest inflight : List String) (done : List (String × UploadOutcome))
      (hroom : inflight.length < limit) :
      SchedStep limit out ⟨p :: rest, inflight, done⟩ ⟨rest, inflight ++ [p], done⟩
  | complete (pending pre post : List String) (p : String)
      (done : List (String × UploadOutcome)) :
      SchedStep limit out ⟨pending, pre ++ p :: post, done⟩
        ⟨pending, pre ++ post, (p, out p) :: done⟩

/-- Reachability of a scheduler state from the start of the batch. -/
def SchedReach (limit : Nat) (out : String → UploadOutcome) (files : List String)
    (s : SchedState) : Prop :=
  Relation.ReflTransGen (SchedStep limit out) (initSched files) s

/-- The files a state accounts for: pending, in flight, or done. Every
transition conserves it up to order, so no file is lost or duplicated. -/
def SchedState.sigList (s : SchedState) : List String :=
  s.pending ++ s.inflight ++ s.done.map Prod.fst

/-- The number of progress-bar increments so far: one per resolved file,
whether its result was `Ok` or `Err` (main.rs lines 284-292). -/
def SchedState.completed (s : SchedState) : Nat := s.done.length

/-! ## The Upload subcommand (`main`, lines 162-199) -/

/-- The arguments of `Commands::Upload` (main.rs lines 49-60): the directory,
the recursive flag, and the `--skip-existing` flag the CLI accepts. -/
structure UploadArgs where
  directory : String
  recursive : Bool
  skip_existing : Bool

/-- The environment one run of the Upload subcommand observes: the ping
response, whether the target is a directory, its contents, and the outcome the
server gives each uploaded file. -/
structure WorldInput where
  pingStatus : Nat
  pingBody : String
  isDir : Bool
  root : FsForest
  outcome : String → UploadOutcome

/-- Embeds the `Commands::Upload` arm of `main` (main.rs lines 162-199). The
pattern `skip_existing: _` of line 165 is mirrored: the field is matched and
never read. The result summarises a completed batch by the outcome of every
scheduled file — by the scheduler theorems below, every terminal scheduler run
resolves exactly these files to exactly these outcomes. -/
def upload_command (args : UploadArgs) (concurrent : Nat) (w : WorldInput) :
    Except String (List (String × UploadOutcome)) :=
  match args with
  | { directory := _, recursive := recursive, skip_existing := _ } =>
    match run_upload w.pingStatus w.pingBody w.isDir recursive w.root concurrent with
    | .error e => .error e
    | .ok none => .ok []
    | .ok (some fl) => .ok (fl.1.map fun p => (p, w.outcome p))

/-! # Theorems -/

/-- C7: the timestamps come from an ordered fallback chain that never errors:
`created_at` is the file's creation time when the filesystem exposes it, else
its modification time, else the current wall clock; `modified_at` is the
modification time, else the current wall clock. Both are total functions of
their inputs — every case is covered, no error is possible. -/
theorem timestamps_fallback_chain :
    (∀ (c : Int) (m : Option Int) (now : Int), created_at (some c) m now = c) ∧
    (∀ (m now : Int), created_at none (some m) now = m) ∧
    (∀ now : Int, created_at none none now = now) ∧
    (∀ (m now : Int), modified_at (some m) now = m) ∧
    (∀ now : Int, modified_at none now = now) :=
  ⟨fun _ _ _ => rfl, fun _ _ => rfl, fun _ => rfl, fun _ _ => rfl, fun _ => rfl⟩

/-- C4: `upload_file` classifies every server response as: any 2xx status
(exactly 200..=299) is `Uploaded`; a 409 status, or any non-2xx response whose
body contains "already exists", is `AlreadyExists` and is returned as `Ok`
(success, not failure); any other non-2xx response is `Failed` carrying the
status and body, returned as `Err`. -/
theorem classify_response_spec (status : Nat) (body : String) :
    (statusIsSuccess status = true ↔ 200 ≤ status ∧ status < 300) ∧
    (statusIsSuccess status = true → classify_response status body = .Uploaded) ∧
    (statusIsSuccess status = false → (status = 409 ∨ strContains body "already exists" = true) →
      classify_response status body = .AlreadyExists ∧
      upload_response_result status body = .ok ()) ∧
    (statusIsSuccess status = false → status ≠ 409 → strContains body "already exists" = false →
      classify_response status body = .Failed status body ∧
      upload_response_result status body = .error (status, body)) := by
  refine ⟨?_, ?_, ?_, ?_⟩
  · simp [statusIsSuccess]
  · intro h
    simp [classify_response, h]
  · intro h hdup
    have : (status == 409 || strContains body "already exists") = true := by
      rcases hdup with h409 | hbody
      · subst h409; simp
      · simp [hbody]
    simp [classify_response, upload_response_result, h, this]
  · intro h h409 hbody
    have : (status == 409 || strContains body "already exists") = false := by
      simp [hbody, h409]
    simp [classify_response, upload_response_result, h, this]

/-- Witness for C4 at concrete responses: a 2xx, a 409, a non-2xx body
mentioning "already exists", and a plain failure. -/
theorem classify_response_spec_witness :
    classify_response 201 "x" = .Uploaded ∧
    classify_response 409 "" = .AlreadyExists ∧
    classify_response 500 "asset already exists here" = .AlreadyExists ∧
    classify_response 500 "boom" = .Failed 500 "boom" :=
  ⟨(classify_response_spec 201 "x").2.1 (by decide),
   ((classify_response_spec 409 "").2.2.1 (by decide) (Or.inl rfl)).1,
   ((classify_response_spec 500 "asset already exists here").2.2.1 (by decide)
     (Or.inr (by decide))).1,
   ((classify_response_spec 500 "boom").2.2.2 (by decide) (by decide) (by decide)).1⟩

/-- C10: the Upload subcommand behaves identically whatever the value of the
`--skip-existing` flag: the CLI accepts the flag (it is a field of the
arguments), but the Upload arm binds it to `_` and never reads it, so two runs
differing only in this flag observe the same world the same way and produce
the same result. -/
theorem skip_existing_flag_unused :
    ∀ (d : String) (r s1 s2 : Bool) (concurrent : Nat) (w : WorldInput),
      upload_command ⟨d, r, s1⟩ concurrent w = upload_command ⟨d, r, s2⟩ concurrent w :=
  fun _ _ _ _ _ _ => rfl

/-- C6: precondition failures are fatal and precede all uploads. The
connectivity check succeeds exactly when the ping returns a 2xx status whose
body contains "pong"; when it fails, and likewise when the upload root is not
a directory, the Upload flow returns an error and the scheduler is started on
no file at all (`scheduled_files` of an error is empty, and `upload_file`
invocations happen only through scheduler steps on scheduled files). -/
theorem preconditions_abort_before_upload (pingStatus : Nat) (pingBody : String)
    (isDir recursive : Bool) (root : FsForest) (concurrent : Nat) :
    (check_connection pingStatus pingBody = .ok () ↔
      statusIsSuccess pingStatus = true ∧ strContains pingBody "pong" = true) ∧
    (¬(statusIsSuccess pingStatus = true ∧ strContains pingBody "pong" = true) →
      ∃ e, run_upload pingStatus pingBody isDir recursive root concurrent = .error e) ∧
    (isDir = false →
      ∃ e, run_upload pingStatus pingBody isDir recursive root concurrent = .error e) ∧
    (∀ e : String, scheduled_files (.error e) = []) := by
  refine ⟨?_, ?_, ?_, fun _ => rfl⟩
  · unfold check_connection
    cases hs : statusIsSuccess pingStatus <;>
      cases hc : strContains pingBody "pong" <;> simp
  · intro h
    unfold run_upload check_connection
    cases hs : statusIsSuccess pingStatus <;>
      cases hc : strContains pingBody "pong" <;> simp_all
  · intro hdir
    subst hdir
    unfold run_upload check_connection upload_directory_pre
    cases hs : statusIsSuccess pingStatus <;>
      cases hc : strContains pingBody "pong" <;> simp

/-- Witness for C6: an HTTP 500 ping aborts the flow with an error and no
scheduled file, and a non-directory root likewise. -/
theorem preconditions_abort_before_upload_witness :
    (∃ e, run_upload 500 "pong" true true .nil 10 = .error e) ∧
    (∃ e, run_upload 200 "pong" false true .nil 10 = .error e) :=
  ⟨(preconditions_abort_before_upload 500 "pong" true true .nil 10).2.1 (by decide),
   (preconditions_abort_before_upload 200 "pong" false true .nil 10).2.2.1 rfl⟩

/-- C9: for every file it uploads, `upload_file` sends exactly one POST to
`{server}/api/assets` with the static `x-api-key` header, whose multipart body
has exactly the parts `assetData` (the file bytes, named by the original
basename, with the sniffed content type), `deviceAssetId`, `deviceId`,
`fileCreatedAt` and `fileModifiedAt` (the RFC3339-rendered derived
timestamps), and `isFavorite` with the literal `false`. -/
theorem upload_request_exact (server_url api_key path dev mime : String)
    (meta : FileMeta) (now : Int) (fileBytes : List Nat) (filename : String)
    (hname : basename path = some filename) :
    upload_file_sends server_url api_key path dev mime meta now fileBytes =
      [{ method := "POST"
         url := server_url ++ "/api/assets"
         xApiKey := api_key
         parts := [
           ⟨"assetData", some filename, some mime, .bytes fileBytes⟩,
           ⟨"deviceAssetId", none, none, .text (device_asset_id dev path)⟩,
           ⟨"deviceId", none, none, .text dev⟩,
           ⟨"fileCreatedAt", none, none,
             .text (to_rfc3339 (created_at meta.created meta.modified now))⟩,
           ⟨"fileModifiedAt", none, none,
             .text (to_rfc3339 (modified_at meta.modified now))⟩,
           ⟨"isFavorite", none, none, .text "false"⟩] }] := by
  simp [upload_file_sends, upload_file_request, hname, Form.new, Form.part, Form.text,
    Part.bytes, Part.file_name, Part.mime_str]

/-- Witness for C9 at a concrete file. -/
theorem upload_request_exact_witness :
    upload_file_sends "http://s" "k" "d/a.jpg" "rimmich-uploader" "image/jpeg"
      ⟨some 5, some 7⟩ 9 [1, 2] =
      [{ method := "POST"
         url := "http://s" ++ "/api/assets"
         xApiKey := "k"
         parts := [
           ⟨"assetData", some "a.jpg", some "image/jpeg", .bytes [1, 2]⟩,
           ⟨"deviceAssetId", none, none, .text (device_asset_id "rimmich-uploader" "d/a.jpg")⟩,
           ⟨"deviceId", none, none, .text "rimmich-uploader"⟩,
           ⟨"fileCreatedAt", none, none, .text (to_rfc3339 (created_at (some 5) (some 7) 9))⟩,
           ⟨"fileModifiedAt", none, none, .text (to_rfc3339 (modified_at (some 7) 9))⟩,
           ⟨"isFavorite", none, none, .text "false"⟩] }] :=
  upload_request_exact "http://s" "k" "d/a.jpg" "rimmich-uploader" "image/jpeg"
    ⟨some 5, some 7⟩ 9 [1, 2] "a.jpg" (by decide)

/-- A decimal digit's character has the expected code. -/
theorem digitChar_toNat (d : Nat) (h : d < 10) : (digitChar d).toNat = 48 + d := by
  interval_cases d <;> decide

/-- Decoding the little-endian digit characters of `n` recovers `n`. -/
theorem ofDigits_natDecimalAux (fuel : Nat) :
    ∀ n, n ≤ fuel →
      Nat.ofDigits 10 ((natDecimalAux fuel n).map fun c => c.toNat - 48) = n := by
  induction fuel with
  | zero =>
    intro n hn
    interval_cases n
    simp [natDecimalAux]
  | succ fuel ih =>
    intro n hn
    match n with
    | 0 => simp [natDecimalAux]
    | k + 1 =>
      have hdiv : (k + 1) / 10 ≤ fuel := by
        have := Nat.div_lt_self (Nat.succ_pos k) (by omega : 1 < 10)
        omega
      have hmod : (k + 1) % 10 < 10 := Nat.mod_lt _ (by omega)
      simp only [natDecimalAux, List.map_cons, Nat.ofDigits_cons, digitChar_toNat _ hmod,
        ih _ hdiv]
      omega

/-- `decodeDecimal` is a left inverse of `natDecimal`. -/
theorem decode_natDecimal (n : Nat) : decodeDecimal (natDecimal n) = n := by
  by_cases h : n = 0
  · subst h; decide
  · unfold natDecimal decodeDecimal
    simp only [h, if_false, List.reverse_reverse]
    exact ofDigits_natDecimalAux n n le_rfl

/-- Decimal rendering is injective. -/
theorem natDecimal_injective : Function.Injective natDecimal := by
  intro a b h
  have h2 := congrArg decodeDecimal h
  rwa [decode_natDecimal, decode_natDecimal] at h2

/-- Cancelling a common prefix of two equal strings. -/
theorem string_append_left_cancel {a b c : String} (h : a ++ b = a ++ c) : b = c := by
  have hd : (a ++ b).data = (a ++ c).data := by rw [h]
  simp only [String.data_append] at hd
  have h2 := List.append_cancel_left hd
  cases b; cases c; exact congrArg String.mk h2

/-- C8: `deviceAssetId` is a pure, deterministic function of the file's path
alone: it is the fixed device token concatenated with a deterministic hash of
the path, so it is unchanged across runs that differ in everything else the
upload reads (file times, wall clock, file bytes), and paths whose hashes
differ get different identifiers (collisions are confined to hash collisions,
which is the "overwhelming probability" clause: the identifier distinguishes
the paths whenever the 64-bit hash does). -/
theorem device_asset_id_pure_deterministic :
    (∀ (path : String) (env1 env2 : RunEnv),
      (asset_identity path env1).deviceAssetId = (asset_identity path env2).deviceAssetId) ∧
    (∀ path : String, (asset_identity path ⟨none, none, 0, []⟩).deviceAssetId
        = device_id ++ "-" ++ natDecimal (path_hash path)) ∧
    (∀ p1 p2 : String, path_hash p1 ≠ path_hash p2 →
      device_asset_id device_id p1 ≠ device_asset_id device_id p2) := by
  refine ⟨fun _ _ _ => rfl, fun _ => rfl, ?_⟩
  intro p1 p2 hne heq
  exact hne (natDecimal_injective (string_append_left_cancel heq))

/-- Witness for C8: the identity of `"a"` is the same in two unrelated run
environments, and `"a"` and `"b"` (whose hashes differ) get different ids. -/
theorem device_asset_id_pure_deterministic_witness :
    (asset_identity "a" ⟨some 1, some 2, 3, [0]⟩).deviceAssetId
      = (asset_identity "a" ⟨none, none, 99, [1, 2, 3]⟩).deviceAssetId ∧
    device_asset_id device_id "a" ≠ device_asset_id device_id "b" :=
  ⟨device_asset_id_pure_deterministic.1 "a" ⟨some 1, some 2, 3, [0]⟩ ⟨none, none, 99, [1, 2, 3]⟩,
   device_asset_id_pure_deterministic.2.2 "a" "b" (by decide)⟩

mutual
/-- The scan loop restricted to one entry's walk equals the spec's filter over
the regular files below that entry. -/
theorem discovered_entry_eq (pre : String) (e : FsEntry) :
    (walkEntry pre e).filterMap entryMedia =
      ((regularFilesEntry pre e).filter fun pm => is_image_or_video pm.2).map Prod.fst := by
  match e with
  | .file name mime =>
    by_cases h : is_image_or_video mime <;>
      simp [walkEntry, regularFilesEntry, entryMedia, h]
  | .special name => simp [walkEntry, regularFilesEntry, entryMedia]
  | .dir name children =>
    simpa [walkEntry, regularFilesEntry, entryMedia] using
      discovered_forest_eq (pre ++ name ++ "/") children
/-- The scan loop over a forest's walk equals the spec's filter over the
regular files below the forest. -/
theorem discovered_forest_eq (pre : String) (f : FsForest) :
    (walkForest pre f).filterMap entryMedia =
      ((regularFilesForest pre f).filter fun pm => is_image_or_video pm.2).map Prod.fst := by
  match f with
  | .nil => simp [walkForest, regularFilesForest]
  | .cons e rest =>
    simp only [walkForest, regularFilesForest, List.filterMap_append, List.filter_append,
      List.map_append]
    rw [discovered_entry_eq pre e, discovered_forest_eq pre rest]
end

/-- Depth-1 version of the scan/spec agreement: direct children only. -/
theorem discovered_depth1_eq (pre : String) :
    ∀ f : FsForest,
      (walkDepth1 pre f).filterMap entryMedia =
        ((regularFilesDepth1 pre f).filter fun pm => is_image_or_video pm.2).map Prod.fst
  | .nil => by simp [walkDepth1, regularFilesDepth1]
  | .cons e rest => by
    have ih := discovered_depth1_eq pre rest
    match e with
    | .file name mime =>
      by_cases h : is_image_or_video mime <;>
        simp [walkDepth1, regularFilesDepth1, entryMedia, h, ih]
    | .special name => simp [walkDepth1, regularFilesDepth1, entryMedia, ih]
    | .dir name children => simp [walkDepth1, regularFilesDepth1, entryMedia, ih]

/-- C5: the Discoverer's output equals exactly the regular files under the
scanned scope whose sniffed content type starts with `image/` or `video/`
(unclassifiable files, directories and special entries excluded); when the
recursive flag is false the scope is the root's direct children only. Stated
both as list equality with the spec-side characterisation and as membership. -/
theorem discoverer_exact (recursive : Bool) (root : FsForest) :
    discovered recursive root = spec_discoverer recursive root ∧
    (∀ path : String, path ∈ discovered recursive root ↔
      ∃ mime, (path, mime) ∈ (if recursive then regularFilesForest "" root
          else regularFilesDepth1 "" root) ∧ is_image_or_video mime = true) := by
  have heq : discovered recursive root = spec_discoverer recursive root := by
    cases recursive
    · simpa [discovered, spec_discoverer] using discovered_depth1_eq "" root
    · simpa [discovered, spec_discoverer] using discovered_forest_eq "" root
  refine ⟨heq, ?_⟩
  intro path
  rw [heq]
  cases recursive <;>
    · simp only [spec_discoverer, List.mem_map, List.mem_filter, if_true, if_false,
        Bool.false_eq_true, Prod.exists]
      constructor
      · rintro ⟨a, b, ⟨hmem, hiv⟩, rfl⟩
        exact ⟨b, hmem, hiv⟩
      · rintro ⟨mime, hmem, hiv⟩
        exact ⟨path, mime, ⟨hmem, hiv⟩, rfl⟩

/-- Witness for C5 on a concrete tree: one image at the root, a text file and
a video in a subdirectory. -/
theorem discoverer_exact_witness :
    discovered true (.cons (.file "a.jpg" "image/jpeg")
        (.cons (.dir "sub" (.cons (.file "b.txt" "text/plain")
          (.cons (.file "c.mp4" "video/mp4") .nil))) .nil)) =
      spec_discoverer true (.cons (.file "a.jpg" "image/jpeg")
        (.cons (.dir "sub" (.cons (.file "b.txt" "text/plain")
          (.cons (.file "c.mp4" "video/mp4") .nil))) .nil)) :=
  (discoverer_exact true _).1

/-- A scheduler step keeps the in-flight window within the bound. -/
theorem schedStep_inflight_le {limit : Nat} {out : String → UploadOutcome}
    {s t : SchedState} (h : SchedStep limit out s t)
    (hs : s.inflight.length ≤ limit) : t.inflight.length ≤ limit := by
  cases h with
  | enter p rest inflight done hroom =>
    simp only [List.length_append, List.length_cons, List.length_nil]
    omega
  | complete pending pre post p done =>
    simp only [List.length_append, List.length_cons] at hs ⊢
    omega

/-- A scheduler step permutes the accounted files: admission moves one from
pending to in flight, completion moves one from in flight to done. -/
theorem schedStep_sigList {limit : Nat} {out : String → UploadOutcome}
    {s t : SchedState} (h : SchedStep limit out s t) :
    t.sigList.Perm s.sigList := by
  cases h with
  | enter p rest inflight done hroom =>
    show (rest ++ (inflight ++ [p]) ++ done.map Prod.fst).Perm
      ((p :: rest) ++ inflight ++ done.map Prod.fst)
    simp only [List.append_assoc, List.cons_append, List.nil_append]
    exact (List.perm_middle.append_left rest).trans List.perm_middle
  | complete pending pre post p done =>
    show (pending ++ (pre ++ post) ++ ((p, out p) :: done).map Prod.fst).Perm
      (pending ++ (pre ++ p :: post) ++ done.map Prod.fst)
    simp only [List.map_cons, List.append_assoc, List.cons_append]
    exact (List.perm_middle.append_left pre).append_left pending

/-- A scheduler step preserves outcome correctness: every resolved file is
recorded with the outcome the environment assigns it. -/
theorem schedStep_done_out {limit : Nat} {out : String → UploadOutcome}
    {s t : SchedState} (h : SchedStep limit out s t)
    (hs : ∀ pr ∈ s.done, pr.2 = out pr.1) : ∀ pr ∈ t.done, pr.2 = out pr.1 := by
  cases h with
  | enter p rest inflight done hroom => exact hs
  | complete pending pre post p done =>
    intro pr hpr
    rcases List.mem_cons.mp hpr with h1 | h2
    · subst h1; rfl
    · exact hs pr h2

/-- The three scheduler invariants on every reachable state: the window bound,
file conservation, and outcome correctness. -/
theorem schedReach_invariant {limit : Nat} {out : String → UploadOutcome}
    {files : List String} {s : SchedState} (h : SchedReach limit out files s) :
    s.inflight.length ≤ limit ∧ s.sigList.Perm files ∧ ∀ pr ∈ s.done, pr.2 = out pr.1 := by
  have h2 : Relation.ReflTransGen (SchedStep limit out) (initSched files) s := h
  clear h
  induction h2 with
  | refl =>
    refine ⟨by simp [initSched], ?_, by simp [initSched]⟩
    simp [SchedState.sigList, initSched]
  | tail hab hbc ih =>
    exact ⟨schedStep_inflight_le hbc ih.1, (schedStep_sigList hbc).trans ih.2.1,
      schedStep_done_out hbc ih.2.2⟩

/-- From any state, a final state is reachable when the limit is positive:
complete an outstanding upload if any, else admit the next pending file. -/
theorem sched_run_to_final (limit : Nat) (out : String → UploadOutcome) (hlim : 1 ≤ limit) :
    ∀ (n : Nat) (s : SchedState), 2 * s.pending.length + s.inflight.length ≤ n →
      ∃ t, Relation.ReflTransGen (SchedStep limit out) s t ∧ t.Final := by
  intro n
  induction n with
  | zero =>
    intro s hm
    obtain ⟨pending, inflight, done⟩ := s
    simp only at hm
    have hp : pending = [] := List.length_eq_zero.mp (by omega)
    have hi : inflight = [] := List.length_eq_zero.mp (by omega)
    subst hp; subst hi
    exact ⟨_, .refl, rfl, rfl⟩
  | succ n ih =>
    intro s hm
    obtain ⟨pending, inflight, done⟩ := s
    cases inflight with
    | cons q infl =>
      have hstep : SchedStep limit out ⟨pending, q :: infl, done⟩
          ⟨pending, infl, (q, out q) :: done⟩ :=
        SchedStep.complete pending [] infl q done
      obtain ⟨t, hrtg, hfin⟩ := ih ⟨pending, infl, (q, out q) :: done⟩ (by
        simp only [List.length_cons] at hm ⊢
        omega)
      exact ⟨t, .head hstep hrtg, hfin⟩
    | nil =>
      cases pending with
      | nil => exact ⟨⟨[], [], done⟩, .refl, rfl, rfl⟩
      | cons p rest =>
        have hstep : SchedStep limit out ⟨p :: rest, [], done⟩ ⟨rest, [p], done⟩ :=
          SchedStep.enter p rest [] done (by simpa using hlim)
        obtain ⟨t, hrtg, hfin⟩ := ih ⟨rest, [p], done⟩ (by
          simp only [List.length_cons, List.length_nil] at hm ⊢
          omega)
        exact ⟨t, .head hstep hrtg, hfin⟩

/-- C1: every submitted file produces exactly one outcome. For every batch and
every outcome environment — including ones where some files fail — a final
state is reachable; the progress counter never exceeds the total; and in every
reachable final state the number of recorded outcomes equals the number of
submitted files, the resolved files are exactly the submitted ones (as a
multiset), and each file carries the one outcome the environment assigns it,
so one file's `Failed` never prevents the others' outcomes. -/
theorem batch_exactly_one_outcome_per_file (files : List String)
    (out : String → UploadOutcome) (limit : Nat) (hlim : 1 ≤ limit) :
    (∃ t, SchedReach limit out files t ∧ t.Final) ∧
    (∀ s, SchedReach limit out files s → s.completed ≤ files.length) ∧
    (∀ t, SchedReach limit out files t → t.Final →
      t.completed = files.length ∧
      ((t.done.map Prod.fst : List String) : Multiset String) = (files : Multiset String) ∧
      (∀ pr ∈ t.done, pr.2 = out pr.1)) := by
  refine ⟨?_, ?_, ?_⟩
  · obtain ⟨t, hrtg, hfin⟩ := sched_run_to_final limit out hlim
      (2 * (initSched files).pending.length + (initSched files).inflight.length)
      (initSched files) le_rfl
    exact ⟨t, hrtg, hfin⟩
  · intro s hs
    have hlen := (schedReach_invariant hs).2.1.length_eq
    simp only [SchedState.sigList, List.length_append, List.length_map] at hlen
    simp only [SchedState.completed]
    omega
  · intro t ht hfin
    have hinv := schedReach_invariant ht
    obtain ⟨hpend, hinf⟩ := hfin
    have hperm := hinv.2.1
    rw [SchedState.sigList, hpend, hinf] at hperm
    simp only [List.nil_append] at hperm
    refine ⟨?_, Multiset.coe_eq_coe.mpr hperm, hinv.2.2⟩
    have := hperm.length_eq
    simp only [List.length_map] at this
    simpa [SchedState.completed] using this

/-- Witness for C1: a two-file batch at limit 1 whose first file always fails
still reaches a final state. -/
theorem batch_exactly_one_outcome_per_file_witness :
    ∃ t, SchedReach 1 (fun p => if p = "a" then .Failed 500 "err" else .Uploaded)
      ["a", "b"] t ∧ t.Final :=
  (batch_exactly_one_outcome_per_file ["a", "b"]
    (fun p => if p = "a" then .Failed 500 "err" else .Uploaded) 1 (by decide)).1

/-- C2: for every batch and every limit ≥ 1, at no instant are more than
`limit` upload invocations outstanding (the window bound holds in every
reachable state), and whenever a file is pending and fewer than `limit`
invocations are outstanding — in particular right after a completion frees a
slot — the admission of the next pending file is an enabled transition. -/
theorem scheduler_bounded_concurrency (files : List String)
    (out : String → UploadOutcome) (limit : Nat) (_hlim : 1 ≤ limit) :
    (∀ s, SchedReach limit out files s → s.inflight.length ≤ limit) ∧
    (∀ (p : String) (rest inflight : List String) (done : List (String × UploadOutcome)),
      inflight.length < limit →
      SchedStep limit out ⟨p :: rest, inflight, done⟩ ⟨rest, inflight ++ [p], done⟩) :=
  ⟨fun _ hs => (schedReach_invariant hs).1,
   fun p rest inflight done h => SchedStep.enter p rest inflight done h⟩

/-- Witness for C2: the initial state of a two-file batch respects the bound,
and admission is enabled there. -/
theorem scheduler_bounded_concurrency_witness :
    (initSched ["a", "b"]).inflight.length ≤ 2 ∧
    SchedStep 2 (fun _ => UploadOutcome.Uploaded) ⟨["a", "b"], [], []⟩ ⟨["b"], ["a"], []⟩ :=
  ⟨(scheduler_bounded_concurrency ["a", "b"] (fun _ => UploadOutcome.Uploaded) 2
      (by decide)).1 _ Relation.ReflTransGen.refl,
   (scheduler_bounded_concurrency ["a", "b"] (fun _ => UploadOutcome.Uploaded) 2
      (by decide)).2 "a" ["b"] [] [] (by decide)⟩

/-- Inversion: a scheduler step either admits (so a file is pending and the
window has room) or completes (so something is in flight). -/
theorem schedStep_inversion {limit : Nat} {out : String → UploadOutcome}
    {s t : SchedState} (h : SchedStep limit out s t) :
    (∃ p rest, s.pending = p :: rest ∧ s.inflight.length < limit) ∨ s.inflight ≠ [] := by
  cases h with
  | enter p rest inflight done hroom => exact Or.inl ⟨p, rest, rfl, hroom⟩
  | complete pending pre post p done =>
    refine Or.inr ?_
    simp

/-- With limit 0, the scheduler can take no step from the start of any batch:
admission needs room in a window of size 0, and nothing is in flight to
complete. In particular no `upload_file` invocation ever starts. -/
theorem no_step_at_limit_zero (out : String → UploadOutcome) (files : List String) :
    ¬∃ s', SchedStep 0 out (initSched files) s' := by
  rintro ⟨s', hs'⟩
  rcases schedStep_inversion hs' with ⟨p, rest, _, hroom⟩ | hne
  · simp [initSched] at hroom
  · exact hne rfl

/-- C3 counterexample: with concurrency limit 0 and one discovered file, the
pre-upload phase of `upload_directory` raises no error at all — it succeeds
and hands the batch to the scheduler, which can then take no step: the
fail-fast InvalidConfiguration rejection the claim describes does not exist. -/
theorem limit_zero_counterexample :
    upload_directory_pre true true (.cons (.file "a.jpg" "image/jpeg") .nil) 0 =
      .ok (some (["a.jpg"], 0)) ∧
    (¬∃ e, upload_directory_pre true true (.cons (.file "a.jpg" "image/jpeg") .nil) 0 =
      .error e) ∧
    (¬∃ s', SchedStep 0 (fun _ => UploadOutcome.Uploaded) (initSched ["a.jpg"]) s') ∧
    ¬(initSched ["a.jpg"]).Final := by
  refine ⟨rfl, ?_, no_step_at_limit_zero _ _, ?_⟩
  · rintro ⟨e, he⟩
    rw [(rfl : upload_directory_pre true true (.cons (.file "a.jpg" "image/jpeg") .nil) 0 =
      .ok (some (["a.jpg"], 0)))] at he
    exact Except.noConfusion he
  · rintro ⟨hp, _⟩
    exact List.noConfusion hp

/-- C3 amended: the concurrency limit is a `usize`, so negative values are
unrepresentable at the interface; a zero limit is NOT rejected — the
pre-upload phase performs no validation of the limit (its error behaviour is
identical for limit 0 and any other limit), and at limit 0 the scheduler can
take no step, so no `upload_file` invocation ever runs with a degenerate
limit, but no error is produced either: a nonempty batch simply never reaches
a final state. -/
theorem limit_zero_amended (isDir recursive : Bool) (root : FsForest) (limit : Nat)
    (out : String → UploadOutcome) (files : List String) :
    (∀ e, upload_directory_pre isDir recursive root 0 = .error e ↔
      upload_directory_pre isDir recursive root limit = .error e) ∧
    (¬∃ s', SchedStep 0 out (initSched files) s') ∧
    (files ≠ [] → ¬(initSched files).Final) := by
  refine ⟨?_, no_step_at_limit_zero out files, ?_⟩
  · intro e
    cases isDir
    · simp [upload_directory_pre]
    · by_cases hf : (discovered recursive root).isEmpty <;> simp [upload_directory_pre, hf]
  · intro hne hfin
    exact hne hfin.1

/-- Witness for C3's amended statement at a concrete nonempty batch. -/
theorem limit_zero_amended_witness :
    (¬∃ s', SchedStep 0 (fun _ => UploadOutcome.Uploaded) (initSched ["b.png"]) s') ∧
    ¬(initSched ["b.png"]).Final :=
  ⟨(limit_zero_amended true true .nil 7 (fun _ => UploadOutcome.Uploaded) ["b.png"]).2.1,
   (limit_zero_amended true true .nil 7 (fun _ => UploadOutcome.Uploaded) ["b.png"]).2.2
     (by decide)⟩

end Rimmich
